import Mathlib

/-!
# flow-account-api: account store and provisioning service

A shallow embedding of `model/account.go`, `storage/storage.go`,
`storage/memory/store.go`, `storage/postgres/store.go`, `pkg/pg/pg.go`,
`pkg/pg/errors.go`, `wallet/accounts.go` and `wallet/service.go`, followed by the
properties established about them.

Go maps are finite association lists (`GoMap`); a Go `error` result is an
`Option` of the error value (`none` is `nil`); pointers to records are the
records themselves, so no pointer is nil. The methods of the in-memory store run
under its lock, one at a time: each is a function of the store state.
-/

namespace FlowAccountApi

/-! ## model/account.go -/

/-- The record `model.AccountPublicKey`. -/
structure AccountPublicKey where
  AccountAddress : String
  PublicKey : String
  SigAlgo : String
  HashAlgo : String
  deriving DecidableEq, Repr, Inhabited

/-- The record `model.Account`. -/
structure Account where
  Address : String
  LockedAddress : String
  CreationTransactionID : String
  PublicKeys : List AccountPublicKey
  deriving DecidableEq, Repr, Inhabited

/-- The zero value of `model.Account`, what `var account model.Account` holds. -/
def Account.zero : Account :=
  { Address := "", LockedAddress := "", CreationTransactionID := "", PublicKeys := [] }

/-! ## storage/storage.go -/

/-- Error values a store can return: the two sentinels of `storage/storage.go`
and any other error, carried by its message. -/
inductive StoreError where
  | ErrNotFound
  | ErrExists
  | other (msg : String)
  deriving DecidableEq, Repr, Inhabited

/-! ## Go maps -/

/-- A Go `map[string]β`: the list of its entries, at most one per key when built
with `GoMap.set` from the empty map. -/
abbrev GoMap (β : Type) := List (String × β)

namespace GoMap

/-- The two-valued read `v, ok := m[k]`. -/
def get? {β : Type} (m : GoMap β) (k : String) : Option β :=
  match m with
  | [] => none
  | (k', v) :: rest => if k' = k then some v else get? rest k

/-- The assignment `m[k] = v`: overwrites the entry of `k` or adds one. -/
def set {β : Type} (m : GoMap β) (k : String) (v : β) : GoMap β :=
  match m with
  | [] => [(k, v)]
  | (k', v') :: rest => if k' = k then (k, v) :: rest else (k', v') :: set rest k v

/-- The builtin `len(m)`. -/
def len {β : Type} (m : GoMap β) : Nat := m.length

end GoMap

/-! ## storage/memory/store.go -/

namespace memory

/-- The struct `memory.Store`, without its lock. -/
structure Store where
  accounts : GoMap Account
  publicKeysToAddress : GoMap String
  deriving DecidableEq, Repr, Inhabited

/-- The constructor `NewStore`. -/
def NewStore : Store := { accounts := [], publicKeysToAddress := [] }

/-- The `for ... range account.PublicKeys` loop of `InsertAccount`, run on the key
index: stops with `ErrExists` at the first key found in the index, keeping the
entries written for the keys before it. -/
def insertKeys (idx : GoMap String) (address : String) :
    List AccountPublicKey → GoMap String × Option StoreError
  | [] => (idx, none)
  | publicKey :: rest =>
    match GoMap.get? idx publicKey.PublicKey with
    | some _ => (idx, some StoreError.ErrExists)
    | none => insertKeys (GoMap.set idx publicKey.PublicKey address) address rest

/-- The method `Store.InsertAccount`: the state after the call and the error
returned. -/
def InsertAccount (s : Store) (account : Account) : Store × Option StoreError :=
  match GoMap.get? s.accounts account.Address with
  | some _ => (s, some StoreError.ErrExists)
  | none =>
    let accounts := GoMap.set s.accounts account.Address account
    let r := insertKeys s.publicKeysToAddress account.Address account.PublicKeys
    ({ accounts := accounts, publicKeysToAddress := r.1 }, r.2)

/-- The method `Store.GetAccountByPublicKey`: `account` is the value behind the
output pointer before the call; the result is its value after the call and the
error returned. -/
def GetAccountByPublicKey (s : Store) (publicKey : String) (account : Account) :
    Account × Option StoreError :=
  match GoMap.get? s.publicKeysToAddress publicKey with
  | none => (account, some StoreError.ErrNotFound)
  | some address =>
    match GoMap.get? s.accounts address with
    | none => (account, some StoreError.ErrNotFound)
    | some a => (a, none)

/-- The method `Store.GetAccountCount`. -/
def GetAccountCount (s : Store) : Int × Option StoreError :=
  ((GoMap.len s.accounts : Nat), none)

/-- The state after a sequence of `InsertAccount` calls from `s`. -/
def insertAll (s : Store) : List Account → Store
  | [] => s
  | a :: rest => insertAll (InsertAccount s a).1 rest

/-- The number of calls of a sequence of `InsertAccount` calls from `s` that
return no error. -/
def countSuccesses (s : Store) : List Account → Nat
  | [] => 0
  | a :: rest =>
    (if (InsertAccount s a).2 = none then 1 else 0) + countSuccesses (InsertAccount s a).1 rest

end memory

/-! ## The store interface of storage/storage.go -/

/-- The interface `storage.Store` over a store state `σ`: each method gives the
values it returns, and `InsertAccount` the state after the call. -/
structure StoreOps (σ : Type) where
  InsertAccount : σ → Account → σ × Option StoreError
  GetAccountByPublicKey : σ → String → Account → Account × Option StoreError
  GetAccountCount : σ → Int × Option StoreError

/-- The in-memory store as a `storage.Store`. -/
def memory.ops : StoreOps memory.Store :=
  { InsertAccount := memory.InsertAccount
    GetAccountByPublicKey := memory.GetAccountByPublicKey
    GetAccountCount := memory.GetAccountCount }

/-! ## Values of the ledger SDK used by the wallet package

The SDK is not part of the repository: its types are the records of the fields
the wallet reads, and its functions are fields of `Sdk` and `FlowClient`. -/

namespace flow

/-- An 8-byte `flow.Address`, as a number; the zero value is `0`. -/
abbrev Address := Nat

/-- A `flow.Identifier`, as a number. -/
abbrev Identifier := Nat

/-- A `crypto.SignatureAlgorithm`; `0` is `crypto.UnknownSignatureAlgorithm`. -/
abbrev SignatureAlgorithm := Nat

/-- A `crypto.HashAlgorithm`; `0` is `crypto.UnknownHashAlgorithm`. -/
abbrev HashAlgorithm := Nat

/-- The constant `crypto.UnknownSignatureAlgorithm`. -/
def UnknownSignatureAlgorithm : SignatureAlgorithm := 0

/-- The constant `crypto.UnknownHashAlgorithm`. -/
def UnknownHashAlgorithm : HashAlgorithm := 0

/-- A `crypto.PublicKey`: its algorithm and the hex text of its encoding. -/
structure PublicKey where
  Algorithm : SignatureAlgorithm
  encodedHex : String
  deriving DecidableEq, Repr, Inhabited

/-- The record `flow.AccountKey`. -/
structure AccountKey where
  Index : Int
  PublicKey : PublicKey
  SigAlgo : SignatureAlgorithm
  HashAlgo : HashAlgorithm
  Weight : Int
  SequenceNumber : Nat
  deriving DecidableEq, Repr, Inhabited

/-- The constant `flow.AccountKeyWeightThreshold`. -/
def AccountKeyWeightThreshold : Int := 1000

/-- The chain `flow.NewAccountKey().SetPublicKey(pk).SetHashAlgo(h).SetWeight(w)`. -/
def NewAccountKey (pk : PublicKey) (h : HashAlgorithm) (w : Int) : AccountKey :=
  { Index := 0, PublicKey := pk, SigAlgo := pk.Algorithm, HashAlgo := h, Weight := w,
    SequenceNumber := 0 }

/-- The values of `flow.TransactionStatus`. -/
inductive TransactionStatus where
  | Unknown
  | Pending
  | Finalized
  | Executed
  | Sealed
  | Expired
  deriving DecidableEq, Repr, Inhabited

/-- A `flow.Event`: its type (the field `Type`) and the address it carries when it
is an account-created event. -/
structure Event where
  Type_ : String
  Address : Address
  deriving DecidableEq, Repr, Inhabited

/-- The constant `flow.EventAccountCreated`. -/
def EventAccountCreated : String := "flow.AccountCreated"

/-- The record `flow.TransactionResult`; `Error` is `none` for a nil error. -/
structure TransactionResult where
  Status : TransactionStatus
  Error : Option String
  Events : List Event
  deriving DecidableEq, Repr, Inhabited

/-- The fields of a `flow.Transaction` that the wallet sets. -/
structure Transaction where
  accountKeys : List AccountKey
  authorizer : Address
  ReferenceBlockID : Identifier
  GasLimit : Nat
  ProposalKey : Address × Int × Nat
  Payer : Address
  envelopeSignatures : List (Address × Int)
  deriving DecidableEq, Repr, Inhabited

end flow

/-- A Go error value of the wallet package, by its message. -/
abbrev GoError := String

/-- The ledger client `client.Client`, by what its calls return.
`GetTransactionResult id` lists the outcomes of the successive polls for `id`. -/
structure FlowClient where
  GetAccountAtLatestBlock : flow.Address → Except GoError (List flow.AccountKey)
  GetLatestBlockHeader : Except GoError flow.Identifier
  SendTransaction : flow.Transaction → Option GoError
  GetTransactionResult : flow.Identifier → List (Except GoError flow.TransactionResult)

/-- The struct `createAccountRequest` of `wallet/service.go`. -/
structure createAccountRequest where
  PublicKey : String
  SigAlgo : String
  HashAlgo : String
  deriving DecidableEq, Repr, Inhabited

/-- The functions of the SDK and of `encoding/json` that the wallet calls;
`decodeBody` is `json.NewDecoder(r.Body).Decode(&req)`, `none` when it fails. -/
structure Sdk where
  decodeBody : String → Option createAccountRequest
  StringToSignatureAlgorithm : String → flow.SignatureAlgorithm
  StringToHashAlgorithm : String → flow.HashAlgorithm
  DecodePublicKeyHex : flow.SignatureAlgorithm → String → Except GoError flow.PublicKey
  sigAlgoString : flow.SignatureAlgorithm → String
  hashAlgoString : flow.HashAlgorithm → String
  addressHex : flow.Address → String
  identifierHex : flow.Identifier → String
  transactionID : flow.Transaction → flow.Identifier

/-- How a call of the wallet package ends: with a value, with a returned error,
with a run-time panic, or still waiting in its polling loop when the poll outcomes
run out. -/
inductive Outcome (α : Type) where
  | ok (a : α)
  | error (e : GoError)
  | panic
  | waiting
  deriving DecidableEq, Repr, Inhabited

/-! ## wallet/accounts.go -/

namespace wallet

/-- The constant `gasLimit`. -/
def gasLimit : Nat := 100

/-- The struct `Accounts`; `creatorSigner tx address index` is
`tx.SignEnvelope(address, index, creatorSigner)`, giving the signed transaction. -/
structure Accounts where
  flowClient : FlowClient
  creatorAddress : flow.Address
  creatorKeyIndex : Int
  creatorSigner : flow.Transaction → flow.Address → Int → Except GoError flow.Transaction
  accountLimit : Int

/-- The method `Accounts.GetLimit`. -/
def Accounts.GetLimit (a : Accounts) : Int := a.accountLimit

/-- The method `Accounts.getAccountKey`: the slice read `account.Keys[index]`
panics when `index` is not a position of the slice. The error message leaves out
the address and the index that the source formats into it. -/
def Accounts.getAccountKey (a : Accounts) (address : flow.Address) (index : Int) :
    Outcome flow.AccountKey :=
  match a.flowClient.GetAccountAtLatestBlock address with
  | .error err => .error err
  | .ok keys =>
    if (keys.length : Int) < index then
      .error "account does not contain key at index"
    else if index < 0 then .panic
    else
      match keys.get? index.toNat with
      | some k => .ok k
      | none => .panic

/-- The method `Accounts.createAccountTransaction`. -/
def Accounts.createAccountTransaction (a : Accounts) (creatorAddress : flow.Address)
    (creatorAccountKey accountKey : flow.AccountKey) (referenceBlockID : flow.Identifier) :
    flow.Transaction :=
  { accountKeys := [accountKey]
    authorizer := a.creatorAddress
    ReferenceBlockID := referenceBlockID
    GasLimit := gasLimit
    ProposalKey := (creatorAddress, creatorAccountKey.Index, creatorAccountKey.SequenceNumber)
    Payer := creatorAddress
    envelopeSignatures := [] }

/-- The function `waitForSeal`, run on the outcomes of the successive polls: the
first poll error is returned at once, a result that is not sealed leads to the next
poll, the first sealed result is returned. -/
def waitForSeal : List (Except GoError flow.TransactionResult) → Outcome flow.TransactionResult
  | [] => .waiting
  | .error err :: _ => .error err
  | .ok result :: rest =>
    if result.Status = flow.TransactionStatus.Sealed then .ok result else waitForSeal rest

/-- The loop of `Create` over `result.Events`: the address of the last
account-created event, starting from the zero address. -/
def createdAddress (events : List flow.Event) : flow.Address :=
  events.foldl (fun address event =>
    if event.Type_ = flow.EventAccountCreated then event.Address else address) 0

/-- The method `Accounts.Create`. Each returned error wraps the underlying message
as in the source, without the transaction id of the execution failure. -/
def Accounts.Create (sdk : Sdk) (a : Accounts) (newAccountKey : flow.AccountKey) :
    Outcome Account :=
  match a.getAccountKey a.creatorAddress a.creatorKeyIndex with
  | .error err => .error ("failed to get account creator key: " ++ err)
  | .panic => .panic
  | .waiting => .waiting
  | .ok accountCreatorKey =>
    match a.flowClient.GetLatestBlockHeader with
    | .error err => .error ("failed to get latest block header: " ++ err)
    | .ok latestBlock =>
      let tx := a.createAccountTransaction a.creatorAddress accountCreatorKey newAccountKey
        latestBlock
      match a.creatorSigner tx a.creatorAddress accountCreatorKey.Index with
      | .error err => .error ("failed to sign transaction: " ++ err)
      | .ok tx =>
        match a.flowClient.SendTransaction tx with
        | some err => .error ("failed to send transaction: " ++ err)
        | none =>
          match waitForSeal (a.flowClient.GetTransactionResult (sdk.transactionID tx)) with
          | .error err => .error ("failed to get transaction result: " ++ err)
          | .panic => .panic
          | .waiting => .waiting
          | .ok result =>
            match result.Error with
            | some err => .error ("failed to execute transaction: " ++ err)
            | none =>
              let address := createdAddress result.Events
              let publicKey := newAccountKey.PublicKey.encodedHex
              .ok
                { Address := sdk.addressHex address
                  LockedAddress := ""
                  CreationTransactionID := sdk.identifierHex (sdk.transactionID tx)
                  PublicKeys :=
                    [{ AccountAddress := ""
                       PublicKey := publicKey
                       SigAlgo := sdk.sigAlgoString newAccountKey.SigAlgo
                       HashAlgo := sdk.hashAlgoString newAccountKey.HashAlgo }] }

/-! ## wallet/service.go -/

/-- The body written by `respondWithJSON`: an `error` message object or an
account. -/
inductive Payload where
  | error (message : String)
  | account (a : Account)
  deriving DecidableEq, Repr, Inhabited

/-- The response written to the `http.ResponseWriter`: status code and body. -/
structure Response where
  code : Nat
  payload : Payload
  deriving DecidableEq, Repr, Inhabited

/-- The function `respondWithJSON`. -/
def respondWithJSON (code : Nat) (payload : Payload) : Response :=
  { code := code, payload := payload }

/-- The function `respondWithError`. -/
def respondWithError (code : Nat) (message : String) : Response :=
  respondWithJSON code (Payload.error message)

/-- The constant `http.StatusOK`. -/
def StatusOK : Nat := 200
/-- The constant `http.StatusCreated`. -/
def StatusCreated : Nat := 201
/-- The constant `http.StatusBadRequest`. -/
def StatusBadRequest : Nat := 400
/-- The constant `http.StatusForbidden`. -/
def StatusForbidden : Nat := 403
/-- The constant `http.StatusNotFound`. -/
def StatusNotFound : Nat := 404
/-- The constant `http.StatusConflict`. -/
def StatusConflict : Nat := 409
/-- The constant `http.StatusInternalServerError`. -/
def StatusInternalServerError : Nat := 500

/-- A call made by a handler on the store or on `Accounts`. -/
inductive Call where
  | GetAccountCount
  | Create (accountKey : flow.AccountKey)
  | InsertAccount (account : Account)
  | GetAccountByPublicKey (publicKey : String)
  deriving DecidableEq, Repr, Inhabited

/-- Whether the call is a call of `Accounts.Create`. -/
def Call.isCreate : Call → Bool
  | Call.Create _ => true
  | _ => false

/-- Whether the call is a call of `InsertAccount`. -/
def Call.isInsert : Call → Bool
  | Call.InsertAccount _ => true
  | _ => false

/-- The struct `Service`: its `Accounts` and its store, over the store state `σ`. -/
structure Service (σ : Type) where
  accounts : Accounts
  store : StoreOps σ

/-- What a run of a handler leaves: the response written (`none` when the handler
panicked or is still waiting for the seal), the store state, the value of the
accounts gauge, and the calls it made in order. -/
structure Handled (σ : Type) where
  response : Option Response
  state : σ
  gauge : Option Int
  calls : List Call

/-- The method `Service.exceededAccountLimit`: the boolean returned, the value of
the accounts gauge after the call and the calls made. -/
def Service.exceededAccountLimit {σ : Type} (s : Service σ) (st : σ) (gauge : Option Int) :
    Bool × Option Int × List Call :=
  let maxAccounts := s.accounts.GetLimit
  if maxAccounts = 0 then (false, gauge, [])
  else
    let r := s.store.GetAccountCount st
    match r.2 with
    | some _ => (true, gauge, [Call.GetAccountCount])
    | none => (decide (r.1 ≥ maxAccounts), some r.1, [Call.GetAccountCount])

/-- The validation stage of `createAccount` (decoding the body, resolving the two
algorithms, decoding the public key, building the account key): the account key
passed to `Accounts.Create`, or the message of the 400 response. -/
def validateRequest (sdk : Sdk) (body : String) : Except String flow.AccountKey :=
  match sdk.decodeBody body with
  | none => .error "invalid request payload"
  | some req =>
    let sigAlgo := sdk.StringToSignatureAlgorithm req.SigAlgo
    if sigAlgo = flow.UnknownSignatureAlgorithm then .error "invalid signature algorithm"
    else
      let hashAlgo := sdk.StringToHashAlgorithm req.HashAlgo
      if hashAlgo = flow.UnknownHashAlgorithm then .error "invalid hash algorithm"
      else
        match sdk.DecodePublicKeyHex sigAlgo req.PublicKey with
        | .error _ => .error "invalid public key"
        | .ok publicKey => .ok (flow.NewAccountKey publicKey hashAlgo flow.AccountKeyWeightThreshold)

/-- The handler `Service.createAccount`, run on the request body `body` with the
store in state `st`. -/
def Service.createAccount {σ : Type} (sdk : Sdk) (s : Service σ) (st : σ) (gauge : Option Int)
    (body : String) : Handled σ :=
  let g := s.exceededAccountLimit st gauge
  if g.1 then
    { response := some (respondWithError StatusForbidden "service out of available accounts")
      state := st, gauge := g.2.1, calls := g.2.2 }
  else
    match validateRequest sdk body with
    | .error message =>
      { response := some (respondWithError StatusBadRequest message)
        state := st, gauge := g.2.1, calls := g.2.2 }
    | .ok accountKey =>
      match s.accounts.Create sdk accountKey with
      | .panic =>
        { response := none, state := st, gauge := g.2.1
          calls := g.2.2 ++ [Call.Create accountKey] }
      | .waiting =>
        { response := none, state := st, gauge := g.2.1
          calls := g.2.2 ++ [Call.Create accountKey] }
      | .error _ =>
        { response := some (respondWithError StatusInternalServerError "failed to create account")
          state := st, gauge := g.2.1, calls := g.2.2 ++ [Call.Create accountKey] }
      | .ok account =>
        let r := s.store.InsertAccount st account
        let calls := g.2.2 ++ [Call.Create accountKey, Call.InsertAccount account]
        match r.2 with
        | some err =>
          if err = StoreError.ErrExists then
            { response := some (respondWithError StatusConflict
                "account with address or public key already exists")
              state := r.1, gauge := g.2.1, calls := calls }
          else
            { response := some (respondWithError StatusInternalServerError
                "failed to create account")
              state := r.1, gauge := g.2.1, calls := calls }
        | none =>
          { response := some (respondWithJSON StatusCreated (Payload.account account))
            state := r.1, gauge := g.2.1, calls := calls }

/-- The handler `Service.getAccount`, run on the query parameters `query` (the map
`r.URL.Query()`) with the account store in state `st`. -/
def Service.getAccount {σ : Type} (s : Service σ) (st : σ) (gauge : Option Int)
    (query : GoMap (List String)) : Handled σ :=
  match GoMap.get? query "publicKey" with
  | none =>
    { response := some (respondWithError StatusBadRequest "publicKey is required")
      state := st, gauge := gauge, calls := [] }
  | some publicKeys =>
    match publicKeys with
    | [publicKey] =>
      let r := s.store.GetAccountByPublicKey st publicKey Account.zero
      match r.2 with
      | some err =>
        if err = StoreError.ErrNotFound then
          { response := some (respondWithError StatusNotFound
              ("account with public key " ++ publicKey ++ " does not exist"))
            state := st, gauge := gauge, calls := [Call.GetAccountByPublicKey publicKey] }
        else
          { response := some (respondWithError StatusInternalServerError
              "failed to get account by public key")
            state := st, gauge := gauge, calls := [Call.GetAccountByPublicKey publicKey] }
      | none =>
        { response := some (respondWithJSON StatusOK (Payload.account r.1))
          state := st, gauge := gauge, calls := [Call.GetAccountByPublicKey publicKey] }
    | _ =>
      { response := some (respondWithError StatusBadRequest "must provide one public key")
        state := st, gauge := gauge, calls := [] }

end wallet

/-! ## pkg/pg: errors.go, the transaction wrapper of pg.go, and the database

The relational engine and the client library are not part of the repository. The
database is its two tables; a statement is issued on one of the two handles of
the library, the connection pool (`pg.DB`) or an open transaction (`pg.Tx`). A
statement on the pool is committed on its own; a statement on a transaction is
held back until the transaction commits and is dropped when it rolls back. -/

namespace pg

/-- The error values met by the wrapper: the library's `pg.ErrNoRows` and
`pg.ErrMultiRows`, a library `pg.Error` with what its `IntegrityViolation()`
returns, the four sentinels of `errors.go`, and any other error. -/
inductive Error where
  | libErrNoRows
  | libErrMultiRows
  | libError (integrityViolation : Bool) (msg : String)
  | ErrNoRows
  | ErrMultiRows
  | ErrInvalidEnumValue
  | ErrIntegrityViolation
  | other (msg : String)
  deriving DecidableEq, Repr, Inhabited

/-- The text of an error. -/
def Error.message : Error → String
  | .libErrNoRows => "pg: no rows in result set"
  | .libErrMultiRows => "pg: multiple rows in result set"
  | .libError _ msg => msg
  | .ErrNoRows => "pg: at least one row expected, none returned"
  | .ErrMultiRows => "pg: many rows returned, one expected"
  | .ErrInvalidEnumValue => "pg: invalid value for enum"
  | .ErrIntegrityViolation => "pg: integrity violation"
  | .other msg => msg

/-- The function `convertError`. -/
def convertError : Option Error → Option Error
  | some .libErrMultiRows => some .ErrMultiRows
  | some .libErrNoRows => some .ErrNoRows
  | some .ErrNoRows => some .ErrNoRows
  | some .ErrMultiRows => some .ErrMultiRows
  | some .ErrInvalidEnumValue => some .ErrInvalidEnumValue
  | none => none
  | some (.libError integrityViolation msg) =>
    if integrityViolation then some .ErrIntegrityViolation
    else some (.libError integrityViolation msg)
  | some err => some err

/-- A row of the table `accounts`, primary key `address`. -/
structure AccountRow where
  address : String
  locked_address : String
  creation_tx_id : String
  deriving DecidableEq, Repr, Inhabited

/-- The rows of the two tables; a row of `public_keys` is an `AccountPublicKey`,
primary key `PublicKey`. -/
structure Tables where
  accounts : List AccountRow
  public_keys : List AccountPublicKey
  deriving DecidableEq, Repr, Inhabited

/-- Whether the table `accounts` has a row with this address. -/
def Tables.hasAccount (t : Tables) (address : String) : Bool :=
  t.accounts.any (fun row => decide (row.address = address))

/-- Whether the table `public_keys` has a row with this key. -/
def Tables.hasPublicKey (t : Tables) (publicKey : String) : Bool :=
  t.public_keys.any (fun row => decide (row.PublicKey = publicKey))

/-- The database behind a `pg.Database`: the committed rows, the rows written
through the open transaction and not yet committed (`none` when no transaction is
open), and the error that `DB.Begin` returns when a transaction cannot be opened. -/
structure Database where
  committed : Tables
  pending : Option Tables
  beginError : Option Error
  deriving DecidableEq, Repr, Inhabited

/-- The handle a statement is issued on: the pool `pg.DB` or the transaction
`pg.Tx`. -/
inductive Handle where
  | DB
  | Tx
  deriving DecidableEq, Repr, Inhabited

/-- The library error for a violated primary key. -/
def uniqueViolation : Error :=
  .libError true "duplicate key value violates unique constraint"

/-- The library error for a statement on a transaction that is not open. -/
def txDone : Error := .other "pg: transaction has already been committed or rolled back"

/-- The statement `handle.Model(account).Insert()`: one row into `accounts`. -/
def insertAccountRow (h : Handle) (d : Database) (row : AccountRow) :
    Database × Option Error :=
  match h with
  | .DB =>
    if d.committed.hasAccount row.address then (d, some uniqueViolation)
    else
      ({ d with committed := { d.committed with accounts := d.committed.accounts ++ [row] } },
        none)
  | .Tx =>
    match d.pending with
    | none => (d, some txDone)
    | some p =>
      if d.committed.hasAccount row.address || p.hasAccount row.address then
        (d, some uniqueViolation)
      else ({ d with pending := some { p with accounts := p.accounts ++ [row] } }, none)

/-- The statement `handle.Model(publicKey).Insert()`: one row into `public_keys`. -/
def insertPublicKeyRow (h : Handle) (d : Database) (row : AccountPublicKey) :
    Database × Option Error :=
  match h with
  | .DB =>
    if d.committed.hasPublicKey row.PublicKey then (d, some uniqueViolation)
    else
      ({ d with
          committed := { d.committed with public_keys := d.committed.public_keys ++ [row] } },
        none)
  | .Tx =>
    match d.pending with
    | none => (d, some txDone)
    | some p =>
      if d.committed.hasPublicKey row.PublicKey || p.hasPublicKey row.PublicKey then
        (d, some uniqueViolation)
      else ({ d with pending := some { p with public_keys := p.public_keys ++ [row] } }, none)

/-- The library call `DB.Begin`: opens a transaction with nothing written. -/
def Begin (d : Database) : Database × Option Error :=
  match d.beginError with
  | some err => (d, some err)
  | none => ({ d with pending := some { accounts := [], public_keys := [] } }, none)

/-- The library call `Tx.Commit`: the rows written through the transaction join
the committed rows. -/
def Commit (d : Database) : Database :=
  match d.pending with
  | none => d
  | some p =>
    { d with
      committed :=
        { accounts := d.committed.accounts ++ p.accounts
          public_keys := d.committed.public_keys ++ p.public_keys }
      pending := none }

/-- The library call `Tx.Rollback`: the rows written through the transaction are
dropped. -/
def Rollback (d : Database) : Database := { d with pending := none }

/-- The library method `Tx.RunInTransaction`: rolls the transaction back when `fn`
returns an error and commits it otherwise. -/
def Tx.RunInTransaction (d : Database) (fn : Database → Database × Option Error) :
    Database × Option Error :=
  match fn d with
  | (d1, some err) => (Rollback d1, some err)
  | (d1, none) => (Commit d1, none)

/-- The method `Database.RunInTransaction` of `pg.go`: `next` is called with the
context only; the transaction opened here is not handed to it. -/
def RunInTransaction (d : Database) (next : Database → Database × Option Error) :
    Database × Option Error :=
  match Begin d with
  | (d0, some err) => (d0, some err)
  | (d0, none) =>
    Tx.RunInTransaction d0 (fun d1 => ((next d1).1, convertError (next d1).2))

end pg

/-! ## storage/postgres/store.go -/

namespace postgres

/-- The columns of the table `accounts` taken from a `model.Account`. -/
def accountRow (account : Account) : pg.AccountRow :=
  { address := account.Address
    locked_address := account.LockedAddress
    creation_tx_id := account.CreationTransactionID }

/-- The `for ... range account.PublicKeys` loop of `InsertAccount`, issuing its
statements on the handle `h`: each key is linked to the account and inserted, and
the first error ends the loop. -/
def insertPublicKeys (h : pg.Handle) (d : pg.Database) (address : String) :
    List AccountPublicKey → pg.Database × Option pg.Error
  | [] => (d, none)
  | publicKey :: rest =>
    match pg.insertPublicKeyRow h d { publicKey with AccountAddress := address } with
    | (d1, some err) => (d1, some err)
    | (d1, none) => insertPublicKeys h d1 address rest

/-- The function passed to `RunInTransaction` by `InsertAccount`, issuing its
statements on the handle `h`. -/
def insertStatements (h : pg.Handle) (account : Account) (d : pg.Database) :
    pg.Database × Option pg.Error :=
  match pg.insertAccountRow h d (accountRow account) with
  | (d1, some err) => (d1, some err)
  | (d1, none) => insertPublicKeys h d1 account.Address account.PublicKeys

/-- The body of `Store.InsertAccount` with its statements issued on the handle `h`. -/
def insertAccountOn (h : pg.Handle) (d : pg.Database) (account : Account) :
    pg.Database × Option StoreError :=
  match pg.RunInTransaction d (insertStatements h account) with
  | (d1, some err) =>
    if err = pg.Error.ErrIntegrityViolation then (d1, some StoreError.ErrExists)
    else (d1, some (StoreError.other err.message))
  | (d1, none) => (d1, none)

/-- The method `Store.InsertAccount`: its statements are `s.db.Model(...).Insert()`,
issued on the pool handle `s.db`. -/
def InsertAccount (d : pg.Database) (account : Account) : pg.Database × Option StoreError :=
  insertAccountOn pg.Handle.DB d account

/-- The method `Store.GetAccountCount`: the number of rows of `accounts`. -/
def GetAccountCount (d : pg.Database) : Int × Option StoreError :=
  ((d.committed.accounts.length : Nat), none)

end postgres

/-! ## Quantities read off a request -/

/-- The number of `publicKey` parameters of a query: the length of the entry of
`publicKey` in `r.URL.Query()`, zero when there is none. -/
def wallet.publicKeyCount (query : GoMap (List String)) : Nat :=
  match GoMap.get? query "publicKey" with
  | none => 0
  | some publicKeys => publicKeys.length

/-- The status code of the response of `getAccount`, `none` when no response is
written. -/
def wallet.getStatus {σ : Type} (s : wallet.Service σ) (st : σ) (gauge : Option Int)
    (query : GoMap (List String)) : Option Nat :=
  (s.getAccount st gauge query).response.map (fun r => r.code)

/-! ## Sample data -/

/-- A public key record holding the key string `k`. -/
def mkKey (k : String) : AccountPublicKey :=
  { AccountAddress := "", PublicKey := k, SigAlgo := "ECDSA_P256", HashAlgo := "SHA3_256" }

/-- An account with the given address and key strings. -/
def mkAccount (address : String) (keys : List String) : Account :=
  { Address := address, LockedAddress := "", CreationTransactionID := "tx-" ++ address,
    PublicKeys := keys.map mkKey }

/-- The in-memory store after the one call `InsertAccount` of account `a` with the
key `k`, from the empty store. -/
def storeWithA : memory.Store := memory.insertAll memory.NewStore [mkAccount "a" ["k"]]

/-- An SDK for the samples: a body that is not empty decodes to a request for the
key it spells, the two algorithm names below are known, and every key but `zz`
decodes. -/
def sampleSdk : Sdk :=
  { decodeBody := fun body =>
      if body = "" then none
      else some { PublicKey := body, SigAlgo := "ECDSA_P256", HashAlgo := "SHA3_256" }
    StringToSignatureAlgorithm := fun name => if name = "ECDSA_P256" then 1 else 0
    StringToHashAlgorithm := fun name => if name = "SHA3_256" then 3 else 0
    DecodePublicKeyHex := fun algo text =>
      if text = "zz" then .error "invalid hex" else .ok { Algorithm := algo, encodedHex := text }
    sigAlgoString := fun algo => if algo = 1 then "ECDSA_P256" else "UNKNOWN"
    hashAlgoString := fun algo => if algo = 3 then "SHA3_256" else "UNKNOWN"
    addressHex := fun address => if address = 1 then "0000000000000001" else "0000000000000000"
    identifierHex := fun id => if id = 7 then "07" else "00"
    transactionID := fun tx => tx.ReferenceBlockID }

/-- The creator key held by the sample ledger. -/
def creatorKey : flow.AccountKey :=
  { Index := 0, PublicKey := { Algorithm := 1, encodedHex := "c0" }, SigAlgo := 1, HashAlgo := 3,
    Weight := 1000, SequenceNumber := 4 }

/-- A ledger client whose transaction is sealed at the second poll, with the poll
result `sealed`. -/
def sampleClient (sealed : flow.TransactionResult) : FlowClient :=
  { GetAccountAtLatestBlock := fun _ => .ok [creatorKey]
    GetLatestBlockHeader := .ok 7
    SendTransaction := fun _ => none
    GetTransactionResult := fun _ =>
      [.ok { Status := flow.TransactionStatus.Pending, Error := none, Events := [] }, .ok sealed] }

/-- A sealed result with an account-created event for the address 1. -/
def sealedCreated : flow.TransactionResult :=
  { Status := flow.TransactionStatus.Sealed, Error := none
    Events := [{ Type_ := flow.EventAccountCreated, Address := 1 }] }

/-- A sealed result that carries an execution error. -/
def sealedFailed : flow.TransactionResult :=
  { Status := flow.TransactionStatus.Sealed, Error := some "execution reverted", Events := [] }

/-- The `Accounts` of the samples, with the cap `limit`. -/
def sampleAccounts (limit : Int) (sealed : flow.TransactionResult) : wallet.Accounts :=
  { flowClient := sampleClient sealed
    creatorAddress := 9
    creatorKeyIndex := 0
    creatorSigner := fun tx address index =>
      .ok { tx with envelopeSignatures := [(address, index)] }
    accountLimit := limit }

/-- A service over the in-memory store. -/
def memoryService (limit : Int) (sealed : flow.TransactionResult) :
    wallet.Service memory.Store :=
  { accounts := sampleAccounts limit sealed, store := memory.ops }

/-- A store whose count cannot be read: the in-memory store with a
`GetAccountCount` that returns an error. -/
def unreadableCountOps : StoreOps memory.Store :=
  { InsertAccount := memory.InsertAccount
    GetAccountByPublicKey := memory.GetAccountByPublicKey
    GetAccountCount := fun _ => (0, some (StoreError.other "connection refused")) }

/-- A service over the store whose count cannot be read. -/
def unreadableCountService (limit : Int) : wallet.Service memory.Store :=
  { accounts := sampleAccounts limit sealedCreated, store := unreadableCountOps }

/-- The status code of the response of `createAccount`, `none` when no response
is written. -/
def wallet.createStatus {σ : Type} (sdk : Sdk) (s : wallet.Service σ) (st : σ)
    (gauge : Option Int) (body : String) : Option Nat :=
  (s.createAccount sdk st gauge body).response.map (fun r => r.code)

/-- The constant `flow.EmptyAddress`, the zero value of `flow.Address`. -/
def flow.EmptyAddress : flow.Address := 0

/-- The hexadecimal digit of a number below 16. -/
def flow.hexDigit (n : Nat) : Char :=
  ['0', '1', '2', '3', '4', '5', '6', '7', '8', '9', 'a', 'b', 'c', 'd', 'e', 'f'].getD n '0'

/-- The SDK method `Address.Hex`: `hex.EncodeToString` of the 8 bytes of the
address, sixteen digits with the most significant first. -/
def flow.Address.Hex (a : flow.Address) : String :=
  String.mk ((List.range 16).reverse.map (fun i => flow.hexDigit (a / 16 ^ i % 16)))

/-- The sample SDK with `Address.Hex` as the SDK computes it. -/
def hexSdk : Sdk := { sampleSdk with addressHex := flow.Address.Hex }

/-- A sealed result with no execution error and no account-created event: its one
event is of another type. -/
def sealedNoEvent : flow.TransactionResult :=
  { Status := flow.TransactionStatus.Sealed, Error := none
    Events := [{ Type_ := "flow.AccountKeyAdded", Address := 5 }] }

/-- Whether a poll outcome makes `waitForSeal` poll again: a result, not an error,
whose status is not sealed. -/
def wallet.pollsAgain : Except GoError flow.TransactionResult → Bool
  | .ok result => decide (result.Status ≠ flow.TransactionStatus.Sealed)
  | .error _ => false

/-- The empty database, with no transaction open. -/
def pg.emptyDatabase : pg.Database :=
  { committed := { accounts := [], public_keys := [] }, pending := none, beginError := none }

/-- The database after the one call `InsertAccount` of account `a` with the key `k`,
from the empty database. -/
def databaseWithA : pg.Database :=
  (postgres.InsertAccount pg.emptyDatabase (mkAccount "a" ["k"])).1

/-! ## Lemmas on Go maps -/

theorem GoMap.get?_set {β : Type} (m : GoMap β) (k k' : String) (v : β) :
    GoMap.get? (GoMap.set m k v) k' = if k = k' then some v else GoMap.get? m k' := by
  induction m with
  | nil => simp [GoMap.set, GoMap.get?]
  | cons e rest ih =>
    obtain ⟨k0, v0⟩ := e
    by_cases h0 : k0 = k
    · subst h0
      by_cases h1 : k0 = k' <;> simp [GoMap.set, GoMap.get?, h1]
    · by_cases h1 : k0 = k'
      · subst h1
        have h2 : ¬ k = k0 := fun h => h0 h.symm
        simp [GoMap.set, GoMap.get?, h0, h2]
      · simp [GoMap.set, GoMap.get?, h0, h1, ih]

theorem GoMap.get?_set_self {β : Type} (m : GoMap β) (k : String) (v : β) :
    GoMap.get? (GoMap.set m k v) k = some v := by
  simp [GoMap.get?_set]

theorem GoMap.get?_set_of_ne {β : Type} (m : GoMap β) (k k' : String) (v : β) (h : k ≠ k') :
    GoMap.get? (GoMap.set m k v) k' = GoMap.get? m k' := by
  simp [GoMap.get?_set, h]

/-! ## Lemmas on the key loop of the in-memory store -/

namespace memory

/-- The key loop returns no error or `ErrExists`. -/
theorem insertKeys_err (idx : GoMap String) (address : String) (ks : List AccountPublicKey) :
    (insertKeys idx address ks).2 = none ∨
      (insertKeys idx address ks).2 = some StoreError.ErrExists := by
  induction ks generalizing idx with
  | nil => simp [insertKeys]
  | cons pk rest ih =>
    cases h : GoMap.get? idx pk.PublicKey with
    | none => simpa [insertKeys, h] using ih _
    | some v => simp [insertKeys, h]

/-- The key loop never overwrites an entry of the index. -/
theorem insertKeys_preserves (idx : GoMap String) (address : String)
    (ks : List AccountPublicKey) (k v : String) (h : GoMap.get? idx k = some v) :
    GoMap.get? (insertKeys idx address ks).1 k = some v := by
  induction ks generalizing idx with
  | nil => simpa [insertKeys] using h
  | cons pk rest ih =>
    cases h1 : GoMap.get? idx pk.PublicKey with
    | some w => simpa [insertKeys, h1] using h
    | none =>
      have hne : pk.PublicKey ≠ k := by
        intro e
        rw [e, h] at h1
        cases h1
      simp only [insertKeys, h1]
      apply ih
      rw [GoMap.get?_set_of_ne _ _ _ _ hne]
      exact h

/-- A key that is not in the index and is none of the keys of the loop is not in
the index after the loop. -/
theorem insertKeys_absent (idx : GoMap String) (address : String)
    (ks : List AccountPublicKey) (k : String) (h : GoMap.get? idx k = none)
    (hk : ∀ pk ∈ ks, pk.PublicKey ≠ k) :
    GoMap.get? (insertKeys idx address ks).1 k = none := by
  induction ks generalizing idx with
  | nil => simpa [insertKeys] using h
  | cons pk rest ih =>
    have hne : pk.PublicKey ≠ k := hk pk (List.mem_cons_self _ _)
    have hrest : ∀ q ∈ rest, q.PublicKey ≠ k := fun q hq => hk q (List.mem_cons_of_mem _ hq)
    cases h1 : GoMap.get? idx pk.PublicKey with
    | some w => simpa [insertKeys, h1] using h
    | none =>
      simp only [insertKeys, h1]
      apply ih _ _ hrest
      rw [GoMap.get?_set_of_ne _ _ _ _ hne]
      exact h

/-- When the key loop returns no error, every key of the loop maps to the address. -/
theorem insertKeys_ok (idx : GoMap String) (address : String) (ks : List AccountPublicKey)
    (h : (insertKeys idx address ks).2 = none) :
    ∀ pk ∈ ks, GoMap.get? (insertKeys idx address ks).1 pk.PublicKey = some address := by
  induction ks generalizing idx with
  | nil => intro pk hpk; cases hpk
  | cons q rest ih =>
    cases h1 : GoMap.get? idx q.PublicKey with
    | some w => simp [insertKeys, h1] at h
    | none =>
      simp only [insertKeys, h1] at h ⊢
      intro pk hpk
      rcases List.mem_cons.mp hpk with e | hmem
      · subst e
        exact insertKeys_preserves _ _ _ _ _ (GoMap.get?_set_self _ _ _)
      · exact ih _ h pk hmem

/-- The key loop returns `ErrExists` exactly when a key of the loop is in the index
or the loop has the same key twice. -/
theorem insertKeys_exists_iff (idx : GoMap String) (address : String)
    (ks : List AccountPublicKey) :
    (insertKeys idx address ks).2 = some StoreError.ErrExists ↔
      ((∃ pk ∈ ks, (GoMap.get? idx pk.PublicKey).isSome) ∨
        ¬ (ks.map (fun pk => pk.PublicKey)).Nodup) := by
  induction ks generalizing idx with
  | nil => simp [insertKeys]
  | cons q rest ih =>
    cases h1 : GoMap.get? idx q.PublicKey with
    | some w => simp [insertKeys, h1]
    | none =>
      simp only [insertKeys, h1, ih, GoMap.get?_set, List.map_cons, List.nodup_cons,
        List.mem_cons, exists_eq_or_imp, Option.isSome_none, Bool.false_eq_true, false_or]
      constructor
      · rintro (⟨pk, hpk, hs⟩ | hnd)
        · by_cases e : q.PublicKey = pk.PublicKey
          · right
            intro hh
            exact hh.1 (List.mem_map.mpr ⟨pk, hpk, e.symm⟩)
          · left
            exact ⟨pk, hpk, by simpa [e] using hs⟩
        · right
          intro hh
          exact hnd hh.2
      · rintro (⟨pk, hpk, hs⟩ | hnd)
        · left
          refine ⟨pk, hpk, ?_⟩
          by_cases e : q.PublicKey = pk.PublicKey
          · simp [e]
          · simpa [e] using hs
        · by_cases hmem : q.PublicKey ∈ rest.map (fun pk => pk.PublicKey)
          · left
            obtain ⟨pk, hpk, e⟩ := List.mem_map.mp hmem
            exact ⟨pk, hpk, by simp [e]⟩
          · right
            intro hh
            exact hnd ⟨hmem, hh⟩

/-- A call of `InsertAccount` never overwrites a stored account. -/
theorem InsertAccount_accounts_preserves (s : Store) (b : Account) (x : String) (v : Account)
    (h : GoMap.get? s.accounts x = some v) :
    GoMap.get? (InsertAccount s b).1.accounts x = some v := by
  unfold InsertAccount
  cases h1 : GoMap.get? s.accounts b.Address with
  | some w => simpa using h
  | none =>
    have hne : b.Address ≠ x := by
      intro e
      rw [e, h] at h1
      cases h1
    simp only []
    rw [GoMap.get?_set_of_ne _ _ _ _ hne]
    exact h

/-- A call of `InsertAccount` never overwrites an entry of the key index. -/
theorem InsertAccount_index_preserves (s : Store) (b : Account) (k v : String)
    (h : GoMap.get? s.publicKeysToAddress k = some v) :
    GoMap.get? (InsertAccount s b).1.publicKeysToAddress k = some v := by
  unfold InsertAccount
  cases h1 : GoMap.get? s.accounts b.Address with
  | some w => simpa using h
  | none => exact insertKeys_preserves _ _ _ _ _ h

/-- A key that is not in the index and is no key of the inserted account is not in
the index after `InsertAccount`. -/
theorem InsertAccount_index_absent (s : Store) (b : Account) (k : String)
    (h : GoMap.get? s.publicKeysToAddress k = none)
    (hk : ∀ pk ∈ b.PublicKeys, pk.PublicKey ≠ k) :
    GoMap.get? (InsertAccount s b).1.publicKeysToAddress k = none := by
  unfold InsertAccount
  cases h1 : GoMap.get? s.accounts b.Address with
  | some w => simpa using h
  | none => exact insertKeys_absent _ _ _ _ h hk

theorem insertAll_accounts_preserves (s : Store) (l : List Account) (x : String) (v : Account)
    (h : GoMap.get? s.accounts x = some v) :
    GoMap.get? (insertAll s l).accounts x = some v := by
  induction l generalizing s with
  | nil => simpa [insertAll] using h
  | cons b rest ih => exact ih _ (InsertAccount_accounts_preserves s b x v h)

theorem insertAll_index_preserves (s : Store) (l : List Account) (k v : String)
    (h : GoMap.get? s.publicKeysToAddress k = some v) :
    GoMap.get? (insertAll s l).publicKeysToAddress k = some v := by
  induction l generalizing s with
  | nil => simpa [insertAll] using h
  | cons b rest ih => exact ih _ (InsertAccount_index_preserves s b k v h)

theorem insertAll_index_absent (s : Store) (l : List Account) (k : String)
    (h : GoMap.get? s.publicKeysToAddress k = none)
    (hk : ∀ a ∈ l, ∀ pk ∈ a.PublicKeys, pk.PublicKey ≠ k) :
    GoMap.get? (insertAll s l).publicKeysToAddress k = none := by
  induction l generalizing s with
  | nil => simpa [insertAll] using h
  | cons b rest ih =>
    exact ih _ (InsertAccount_index_absent s b k h (hk b (List.mem_cons_self _ _)))
      (fun a ha => hk a (List.mem_cons_of_mem _ ha))

/-- What a successful `InsertAccount` stores. -/
theorem InsertAccount_ok (s : Store) (a : Account) (h : (InsertAccount s a).2 = none) :
    GoMap.get? (InsertAccount s a).1.accounts a.Address = some a ∧
      ∀ pk ∈ a.PublicKeys,
        GoMap.get? (InsertAccount s a).1.publicKeysToAddress pk.PublicKey = some a.Address := by
  unfold InsertAccount at h ⊢
  cases h1 : GoMap.get? s.accounts a.Address with
  | some w => simp [h1] at h
  | none =>
    simp only [h1] at h ⊢
    exact ⟨GoMap.get?_set_self _ _ _, insertKeys_ok _ _ _ h⟩

end memory

/-! ## The in-memory store: properties -/

/-- C1, at the input where the code departs from it: on the store holding account
`a` with key `k`, `InsertAccount` of an account with the new address `b` and the keys
`j`, `k` meets the key `k` already in the key index and returns `ErrExists`, but
both maps have changed: the address map now holds `b` and the key index holds `j`. -/
theorem C1_key_collision_changes_store :
    GoMap.get? storeWithA.accounts "b" = none ∧
    GoMap.get? storeWithA.publicKeysToAddress "k" = some "a" ∧
    (memory.InsertAccount storeWithA (mkAccount "b" ["j", "k"])).2 = some StoreError.ErrExists ∧
    (memory.InsertAccount storeWithA (mkAccount "b" ["j", "k"])).1.accounts
      ≠ storeWithA.accounts ∧
    (memory.InsertAccount storeWithA (mkAccount "b" ["j", "k"])).1.publicKeysToAddress
      ≠ storeWithA.publicKeysToAddress ∧
    GoMap.get? (memory.InsertAccount storeWithA (mkAccount "b" ["j", "k"])).1.accounts "b"
      = some (mkAccount "b" ["j", "k"]) ∧
    GoMap.get? (memory.InsertAccount storeWithA
      (mkAccount "b" ["j", "k"])).1.publicKeysToAddress "j" = some "b" := by
  decide

/-- C2, at the input where the code departs from it: after `InsertAccount` of
account `a` with key `k` and then of account `b` with the same key `k` (the second
call returns `ErrExists`), the address map holds both accounts under their
different addresses, and both list the key `k`. -/
theorem C2_two_stored_accounts_share_key :
    (memory.InsertAccount storeWithA (mkAccount "b" ["k"])).2 = some StoreError.ErrExists ∧
    GoMap.get? (memory.insertAll memory.NewStore
      [mkAccount "a" ["k"], mkAccount "b" ["k"]]).accounts "a" = some (mkAccount "a" ["k"]) ∧
    GoMap.get? (memory.insertAll memory.NewStore
      [mkAccount "a" ["k"], mkAccount "b" ["k"]]).accounts "b" = some (mkAccount "b" ["k"]) ∧
    mkKey "k" ∈ (mkAccount "a" ["k"]).PublicKeys ∧
    mkKey "k" ∈ (mkAccount "b" ["k"]).PublicKeys := by
  decide

/-- C3, at the input where the code departs from it: on the store holding account
`a` with key `k`, after `InsertAccount` of account `b` with the two keys `j` and `k`,
`GetAccountByPublicKey` returns account `b` for `j` and account `a` for `k`: the
inserted account is returned for exactly one of its two keys. -/
theorem C3_exactly_one_key_queryable :
    memory.GetAccountByPublicKey
        (memory.InsertAccount storeWithA (mkAccount "b" ["j", "k"])).1 "j" Account.zero
      = (mkAccount "b" ["j", "k"], none) ∧
    memory.GetAccountByPublicKey
        (memory.InsertAccount storeWithA (mkAccount "b" ["j", "k"])).1 "k" Account.zero
      = (mkAccount "a" ["k"], none) ∧
    mkAccount "a" ["k"] ≠ mkAccount "b" ["j", "k"] := by
  decide

/-- C4: if `InsertAccount a` returns no error in the state reached from the empty
store by the calls `pre`, then after any further calls `post`,
`GetAccountByPublicKey` of every public key of `a` returns no error and writes
exactly `a` to the output account. -/
theorem C4_lookup_round_trip (pre post : List Account) (a : Account)
    (h : (memory.InsertAccount (memory.insertAll memory.NewStore pre) a).2 = none)
    (pk : AccountPublicKey) (hpk : pk ∈ a.PublicKeys) (out : Account) :
    memory.GetAccountByPublicKey
        (memory.insertAll (memory.InsertAccount (memory.insertAll memory.NewStore pre) a).1 post)
        pk.PublicKey out
      = (a, none) := by
  obtain ⟨hacc, hidx⟩ := memory.InsertAccount_ok _ a h
  have h1 := memory.insertAll_accounts_preserves _ post _ _ hacc
  have h2 := memory.insertAll_index_preserves _ post _ _ (hidx pk hpk)
  simp [memory.GetAccountByPublicKey, h1, h2]

/-- C4 at a concrete sequence: account `c` with keys `x`, `y` inserted after `a`,
followed by a failing and a successful call; key `y` still returns `c`. -/
theorem C4_lookup_round_trip_witness :
    memory.GetAccountByPublicKey
        (memory.insertAll
          (memory.InsertAccount (memory.insertAll memory.NewStore [mkAccount "a" ["k"]])
            (mkAccount "c" ["x", "y"])).1
          [mkAccount "b" ["j", "k"], mkAccount "d" ["z"]])
        (mkKey "y").PublicKey Account.zero
      = (mkAccount "c" ["x", "y"], none) :=
  C4_lookup_round_trip [mkAccount "a" ["k"]] [mkAccount "b" ["j", "k"], mkAccount "d" ["z"]]
    (mkAccount "c" ["x", "y"]) (by decide) (mkKey "y") (by decide) Account.zero

/-- C5 fails as stated: on the empty store, `InsertAccount` of an account whose
key list holds the key `k` twice returns `ErrExists`, although its address is not
stored and none of its keys is in the store before the call. -/
theorem C5_duplicate_key_counterexample :
    (memory.InsertAccount memory.NewStore (mkAccount "a" ["k", "k"])).2
      = some StoreError.ErrExists ∧
    memory.NewStore.accounts = [] ∧
    memory.NewStore.publicKeysToAddress = [] ∧
    GoMap.get? memory.NewStore.accounts (mkAccount "a" ["k", "k"]).Address = none ∧
    (∀ pk ∈ (mkAccount "a" ["k", "k"]).PublicKeys,
      GoMap.get? memory.NewStore.publicKeysToAddress pk.PublicKey = none) := by
  decide

/-- C5 as amended: `InsertAccount a` returns `ErrExists` if and only if the address
of `a` is already stored, or a public key of `a` is already in the key index, or the
key list of `a` holds the same key twice; in every other case it returns no error,
and afterwards `a` is stored under its address and every key of `a` maps to that
address in the key index. -/
theorem C5_exists_iff (s : memory.Store) (a : Account) :
    ((memory.InsertAccount s a).2 = some StoreError.ErrExists ↔
      ((GoMap.get? s.accounts a.Address).isSome ∨
        (∃ pk ∈ a.PublicKeys, (GoMap.get? s.publicKeysToAddress pk.PublicKey).isSome) ∨
        ¬ (a.PublicKeys.map (fun pk => pk.PublicKey)).Nodup)) ∧
    ((memory.InsertAccount s a).2 ≠ some StoreError.ErrExists →
      (memory.InsertAccount s a).2 = none ∧
      GoMap.get? (memory.InsertAccount s a).1.accounts a.Address = some a ∧
      ∀ pk ∈ a.PublicKeys,
        GoMap.get? (memory.InsertAccount s a).1.publicKeysToAddress pk.PublicKey
          = some a.Address) := by
  have hiff : (memory.InsertAccount s a).2 = some StoreError.ErrExists ↔
      ((GoMap.get? s.accounts a.Address).isSome ∨
        (∃ pk ∈ a.PublicKeys, (GoMap.get? s.publicKeysToAddress pk.PublicKey).isSome) ∨
        ¬ (a.PublicKeys.map (fun pk => pk.PublicKey)).Nodup) := by
    unfold memory.InsertAccount
    cases h1 : GoMap.get? s.accounts a.Address with
    | some w => simp
    | none => simpa using memory.insertKeys_exists_iff _ _ _
  refine ⟨hiff, fun hne => ?_⟩
  have hnone : (memory.InsertAccount s a).2 = none := by
    unfold memory.InsertAccount at hne ⊢
    cases h1 : GoMap.get? s.accounts a.Address with
    | some w => simp [h1] at hne
    | none =>
      simp only [h1] at hne ⊢
      rcases memory.insertKeys_err s.publicKeysToAddress a.Address a.PublicKeys with h | h
      · exact h
      · exact absurd h hne
  exact ⟨hnone, memory.InsertAccount_ok s a hnone⟩

/-- C5 as amended, at the store holding account `a`: an account with a new address
and two new, different keys is inserted without error and stored under its address. -/
theorem C5_exists_iff_witness :
    (memory.InsertAccount storeWithA (mkAccount "c" ["x", "y"])).2 = none ∧
    GoMap.get? (memory.InsertAccount storeWithA (mkAccount "c" ["x", "y"])).1.accounts
      (mkAccount "c" ["x", "y"]).Address = some (mkAccount "c" ["x", "y"]) ∧
    ∀ pk ∈ (mkAccount "c" ["x", "y"]).PublicKeys,
      GoMap.get? (memory.InsertAccount storeWithA
        (mkAccount "c" ["x", "y"])).1.publicKeysToAddress pk.PublicKey
        = some (mkAccount "c" ["x", "y"]).Address :=
  (C5_exists_iff storeWithA (mkAccount "c" ["x", "y"])).2 (by decide)

/-- C6, at the input where the code departs from it: after `InsertAccount` of
account `a` with key `k` and then of account `b` with the new address `b` and the
used key `k`, one call has returned no error and the other `ErrExists`, and
`GetAccountCount` returns 2. -/
theorem C6_failed_insert_raises_count :
    memory.countSuccesses memory.NewStore [mkAccount "a" ["k"], mkAccount "b" ["k"]] = 1 ∧
    (memory.InsertAccount storeWithA (mkAccount "b" ["k"])).2 = some StoreError.ErrExists ∧
    memory.GetAccountCount storeWithA = (1, none) ∧
    memory.GetAccountCount
        (memory.insertAll memory.NewStore [mkAccount "a" ["k"], mkAccount "b" ["k"]])
      = (2, none) := by
  decide

/-- C7: in the state reached from the empty store by the `InsertAccount` calls
`calls`, `GetAccountByPublicKey` of a key that is in the key list of none of the
accounts of `calls` returns `ErrNotFound` and leaves the output account as it was. -/
theorem C7_never_inserted_not_found (calls : List Account) (k : String) (out : Account)
    (h : ∀ a ∈ calls, ∀ pk ∈ a.PublicKeys, pk.PublicKey ≠ k) :
    memory.GetAccountByPublicKey (memory.insertAll memory.NewStore calls) k out
      = (out, some StoreError.ErrNotFound) := by
  have h0 : GoMap.get? memory.NewStore.publicKeysToAddress k = none := rfl
  have h1 := memory.insertAll_index_absent memory.NewStore calls k h0 h
  simp [memory.GetAccountByPublicKey, h1]

/-- C7 at a concrete sequence: after two calls, one of them failing, the key `z`
of neither account is not found and the output account keeps its value. -/
theorem C7_never_inserted_not_found_witness :
    memory.GetAccountByPublicKey
        (memory.insertAll memory.NewStore [mkAccount "a" ["k"], mkAccount "b" ["j", "k"]])
        "z" (mkAccount "out" ["o"])
      = (mkAccount "out" ["o"], some StoreError.ErrNotFound) :=
  C7_never_inserted_not_found [mkAccount "a" ["k"], mkAccount "b" ["j", "k"]] "z"
    (mkAccount "out" ["o"]) (by decide)

/-! ## The provisioning service: properties -/

/-- The gate blocks when the cap is not zero and the count read is at least the cap. -/
theorem wallet.exceededAccountLimit_of_count {σ : Type} (s : wallet.Service σ) (st : σ)
    (gauge : Option Int) (h0 : s.accounts.GetLimit ≠ 0)
    (h1 : (s.store.GetAccountCount st).2 = none)
    (h2 : (s.store.GetAccountCount st).1 ≥ s.accounts.GetLimit) :
    (s.exceededAccountLimit st gauge).1 = true := by
  unfold wallet.Service.exceededAccountLimit
  simp [h0, h1, h2]

/-- C8: `exceededAccountLimit` returns true if and only if the cap is not zero and
either the count is read and is at least the cap, or the count cannot be read; with
the cap zero it returns false, whatever the store returns. -/
theorem C8_gate_blocks_iff {σ : Type} (s : wallet.Service σ) (st : σ) (gauge : Option Int) :
    ((s.exceededAccountLimit st gauge).1 = true ↔
      s.accounts.GetLimit ≠ 0 ∧
        (((s.store.GetAccountCount st).2 = none ∧
            (s.store.GetAccountCount st).1 ≥ s.accounts.GetLimit) ∨
          (s.store.GetAccountCount st).2 ≠ none)) ∧
    (s.accounts.GetLimit = 0 → (s.exceededAccountLimit st gauge).1 = false) := by
  unfold wallet.Service.exceededAccountLimit
  by_cases h0 : s.accounts.GetLimit = 0
  · simp [h0]
  · cases h1 : (s.store.GetAccountCount st).2 with
    | none => simp [h0, h1]
    | some err => simp [h0, h1]

/-- C9: a run of `createAccount` stops at its first failing stage. When the cap
is not zero and the count read from the store is at least the cap, or when the
request fails validation, the run makes no call of `Accounts.Create` and no call of
`InsertAccount` and the store state is unchanged; when `Accounts.Create` returns an
error for the validated key, the run makes no call of `InsertAccount` and the store
state is unchanged. -/
theorem C9_stops_at_first_failure {σ : Type} (sdk : Sdk) (s : wallet.Service σ) (st : σ)
    (gauge : Option Int) (body : String) :
    ((s.accounts.GetLimit ≠ 0 ∧ (s.store.GetAccountCount st).2 = none ∧
        (s.store.GetAccountCount st).1 ≥ s.accounts.GetLimit) →
      (∀ c ∈ (s.createAccount sdk st gauge body).calls,
        c.isCreate = false ∧ c.isInsert = false) ∧
      (s.createAccount sdk st gauge body).state = st) ∧
    ((∃ message, wallet.validateRequest sdk body = .error message) →
      (∀ c ∈ (s.createAccount sdk st gauge body).calls,
        c.isCreate = false ∧ c.isInsert = false) ∧
      (s.createAccount sdk st gauge body).state = st) ∧
    (∀ accountKey err, wallet.validateRequest sdk body = .ok accountKey →
      s.accounts.Create sdk accountKey = .error err →
      (∀ c ∈ (s.createAccount sdk st gauge body).calls, c.isInsert = false) ∧
      (s.createAccount sdk st gauge body).state = st) := by
  have hgate : ∀ c ∈ (s.exceededAccountLimit st gauge).2.2,
      c.isCreate = false ∧ c.isInsert = false := by
    intro c hc
    unfold wallet.Service.exceededAccountLimit at hc
    by_cases h0 : s.accounts.GetLimit = 0
    · simp [h0] at hc
    · cases h1 : (s.store.GetAccountCount st).2 with
      | none =>
        simp [h0, h1] at hc
        subst hc
        exact ⟨rfl, rfl⟩
      | some e =>
        simp [h0, h1] at hc
        subst hc
        exact ⟨rfl, rfl⟩
  refine ⟨?_, ?_, ?_⟩
  · rintro ⟨h0, h1, h2⟩
    have hg : (s.exceededAccountLimit st gauge).1 = true :=
      wallet.exceededAccountLimit_of_count s st gauge h0 h1 h2
    simp only [wallet.Service.createAccount, hg, if_true]
    exact ⟨hgate, trivial⟩
  · rintro ⟨message, hv⟩
    cases hg : (s.exceededAccountLimit st gauge).1 with
    | true =>
      simp only [wallet.Service.createAccount, hg, if_true]
      exact ⟨hgate, trivial⟩
    | false =>
      simp only [wallet.Service.createAccount, hg, hv]
      exact ⟨hgate, rfl⟩
  · intro accountKey err hv hc
    cases hg : (s.exceededAccountLimit st gauge).1 with
    | true =>
      simp only [wallet.Service.createAccount, hg, if_true]
      exact ⟨fun c hmem => (hgate c hmem).2, trivial⟩
    | false =>
      simp only [wallet.Service.createAccount, hg, hv, hc]
      refine ⟨?_, rfl⟩
      intro c hmem
      rcases List.mem_append.mp hmem with h | h
      · exact (hgate c h).2
      · simp at h
        subst h
        rfl

/-- C9 at a concrete run: the ledger seals the transaction with an execution
error, so `Accounts.Create` returns an error; the run makes no call of
`InsertAccount` and the store still holds what it held. -/
theorem C9_stops_at_first_failure_witness :
    (∀ c ∈ ((memoryService 10 sealedFailed).createAccount sampleSdk storeWithA none "abcd").calls,
      c.isInsert = false) ∧
    ((memoryService 10 sealedFailed).createAccount sampleSdk storeWithA none "abcd").state
      = storeWithA :=
  (C9_stops_at_first_failure sampleSdk (memoryService 10 sealedFailed) storeWithA none "abcd").2.2
    (flow.NewAccountKey { Algorithm := 1, encodedHex := "abcd" } 3 1000)
    "failed to execute transaction: execution reverted" rfl (by decide)

/-- C10 fails as stated: with the cap 5, one account stored and a store whose
count cannot be read, `createAccount` answers 403 to a valid request: the cap is not
exceeded, and the failure of a store operation with an error that is not `ErrExists`
does not give 500. -/
theorem C10_unreadable_count_counterexample :
    wallet.createStatus sampleSdk (unreadableCountService 5) storeWithA none "abcd"
      = some wallet.StatusForbidden ∧
    (unreadableCountService 5).accounts.GetLimit = 5 ∧
    GoMap.len storeWithA.accounts = 1 ∧
    ((unreadableCountService 5).store.GetAccountCount storeWithA).2
      = some (StoreError.other "connection refused") ∧
    wallet.createStatus sampleSdk (unreadableCountService 5) storeWithA none "abcd"
      ≠ some wallet.StatusInternalServerError := by
  decide

/-- C10 as amended: the status of the response of `createAccount` is 403 exactly
when `exceededAccountLimit` returns true (the cap is not zero and the count is at
least the cap or cannot be read); otherwise 400 when the request fails validation;
otherwise 500 when `Accounts.Create` returns an error; otherwise 409 when
`InsertAccount` returns `ErrExists` and 500 when it returns any other error; and 201
with the created account when `InsertAccount` returns no error, which is the only
way to 201. -/
theorem C10_status_cascade {σ : Type} (sdk : Sdk) (s : wallet.Service σ) (st : σ)
    (gauge : Option Int) (body : String) :
    (wallet.createStatus sdk s st gauge body = some wallet.StatusForbidden ↔
      (s.exceededAccountLimit st gauge).1 = true) ∧
    ((s.exceededAccountLimit st gauge).1 = false →
      (∀ message, wallet.validateRequest sdk body = .error message →
        wallet.createStatus sdk s st gauge body = some wallet.StatusBadRequest) ∧
      (∀ accountKey, wallet.validateRequest sdk body = .ok accountKey →
        (∀ err, s.accounts.Create sdk accountKey = .error err →
          wallet.createStatus sdk s st gauge body = some wallet.StatusInternalServerError) ∧
        (∀ account, s.accounts.Create sdk accountKey = .ok account →
          ((s.store.InsertAccount st account).2 = some StoreError.ErrExists →
            wallet.createStatus sdk s st gauge body = some wallet.StatusConflict) ∧
          (∀ err, (s.store.InsertAccount st account).2 = some err →
            err ≠ StoreError.ErrExists →
            wallet.createStatus sdk s st gauge body = some wallet.StatusInternalServerError) ∧
          ((s.store.InsertAccount st account).2 = none →
            (s.createAccount sdk st gauge body).response
              = some (wallet.respondWithJSON wallet.StatusCreated
                  (wallet.Payload.account account)))))) ∧
    (wallet.createStatus sdk s st gauge body = some wallet.StatusCreated →
      (s.exceededAccountLimit st gauge).1 = false ∧
      ∃ accountKey account, wallet.validateRequest sdk body = .ok accountKey ∧
        s.accounts.Create sdk accountKey = .ok account ∧
        (s.store.InsertAccount st account).2 = none) := by
  cases hg : (s.exceededAccountLimit st gauge).1 with
  | true =>
    simp [wallet.createStatus, wallet.Service.createAccount, hg, wallet.respondWithError,
      wallet.respondWithJSON, wallet.StatusForbidden, wallet.StatusCreated]
  | false =>
    cases hv : wallet.validateRequest sdk body with
    | error message =>
      simp [wallet.createStatus, wallet.Service.createAccount, hg, hv, wallet.respondWithError,
        wallet.respondWithJSON, wallet.StatusForbidden, wallet.StatusCreated,
        wallet.StatusBadRequest]
    | ok accountKey =>
      cases hc : s.accounts.Create sdk accountKey with
      | panic =>
        simp [wallet.createStatus, wallet.Service.createAccount, hg, hv, hc]
      | waiting =>
        simp [wallet.createStatus, wallet.Service.createAccount, hg, hv, hc]
      | error err =>
        simp [wallet.createStatus, wallet.Service.createAccount, hg, hv, hc,
          wallet.respondWithError, wallet.respondWithJSON, wallet.StatusForbidden,
          wallet.StatusCreated, wallet.StatusInternalServerError]
      | ok account =>
        cases hi : (s.store.InsertAccount st account).2 with
        | none =>
          simp [wallet.createStatus, wallet.Service.createAccount, hg, hv, hc, hi,
            wallet.respondWithJSON, wallet.StatusForbidden, wallet.StatusCreated]
        | some e =>
          by_cases he : e = StoreError.ErrExists
          · simp [wallet.createStatus, wallet.Service.createAccount, hg, hv, hc, hi, he,
              wallet.respondWithError, wallet.respondWithJSON, wallet.StatusForbidden,
              wallet.StatusCreated, wallet.StatusConflict]
          · simp [wallet.createStatus, wallet.Service.createAccount, hg, hv, hc, hi, he,
              wallet.respondWithError, wallet.respondWithJSON, wallet.StatusForbidden,
              wallet.StatusCreated, wallet.StatusInternalServerError]

/-- C10 as amended, at a concrete run: cap 10, one account stored, a valid request
and a sealed transaction with an account-created event give 201. -/
theorem C10_status_cascade_witness :
    (memoryService 10 sealedCreated).exceededAccountLimit storeWithA none
      = (false, some 1, [wallet.Call.GetAccountCount]) ∧
    ∃ accountKey account, wallet.validateRequest sampleSdk "abcd" = .ok accountKey ∧
      (memoryService 10 sealedCreated).accounts.Create sampleSdk accountKey = .ok account ∧
      ((memoryService 10 sealedCreated).store.InsertAccount storeWithA account).2 = none :=
  ⟨by decide,
    ((C10_status_cascade sampleSdk (memoryService 10 sealedCreated) storeWithA none "abcd").2.2
      (by decide)).2⟩

/-! ## The lookup handler: properties -/

/-- C11: `getAccount` answers 400 without a call on the store if and only if the
number of `publicKey` parameters is not one. With one parameter it calls
`GetAccountByPublicKey` once, with that value, and answers 404 when the store
returns `ErrNotFound`, 500 when it returns any other error, and 200 with the account
written by the store when it returns no error. -/
theorem C11_get_account_status {σ : Type} (s : wallet.Service σ) (st : σ)
    (gauge : Option Int) (query : GoMap (List String)) :
    ((wallet.getStatus s st gauge query = some wallet.StatusBadRequest ∧
        (s.getAccount st gauge query).calls = []) ↔ wallet.publicKeyCount query ≠ 1) ∧
    (wallet.publicKeyCount query = 1 ↔
      ∃ publicKey, GoMap.get? query "publicKey" = some [publicKey]) ∧
    (∀ publicKey, GoMap.get? query "publicKey" = some [publicKey] →
      (s.getAccount st gauge query).calls = [wallet.Call.GetAccountByPublicKey publicKey] ∧
      ((s.store.GetAccountByPublicKey st publicKey Account.zero).2
          = some StoreError.ErrNotFound →
        wallet.getStatus s st gauge query = some wallet.StatusNotFound) ∧
      (∀ err, (s.store.GetAccountByPublicKey st publicKey Account.zero).2 = some err →
        err ≠ StoreError.ErrNotFound →
        wallet.getStatus s st gauge query = some wallet.StatusInternalServerError) ∧
      ((s.store.GetAccountByPublicKey st publicKey Account.zero).2 = none →
        (s.getAccount st gauge query).response
          = some (wallet.respondWithJSON wallet.StatusOK
              (wallet.Payload.account
                (s.store.GetAccountByPublicKey st publicKey Account.zero).1)))) := by
  cases hq : GoMap.get? query "publicKey" with
  | none =>
    simp [wallet.getStatus, wallet.Service.getAccount, wallet.publicKeyCount, hq,
      wallet.respondWithError, wallet.respondWithJSON]
  | some publicKeys =>
    match publicKeys with
    | [] =>
      simp [wallet.getStatus, wallet.Service.getAccount, wallet.publicKeyCount, hq,
        wallet.respondWithError, wallet.respondWithJSON]
    | _ :: _ :: _ =>
      simp [wallet.getStatus, wallet.Service.getAccount, wallet.publicKeyCount, hq,
        wallet.respondWithError, wallet.respondWithJSON]
    | [publicKey] =>
      cases hr : (s.store.GetAccountByPublicKey st publicKey Account.zero).2 with
      | none =>
        simp [wallet.getStatus, wallet.Service.getAccount, wallet.publicKeyCount, hq, hr,
          wallet.respondWithJSON]
      | some e =>
        by_cases he : e = StoreError.ErrNotFound
        · simp [wallet.getStatus, wallet.Service.getAccount, wallet.publicKeyCount, hq, hr, he,
            wallet.respondWithError, wallet.respondWithJSON, wallet.StatusNotFound]
        · simp [wallet.getStatus, wallet.Service.getAccount, wallet.publicKeyCount, hq, hr, he,
            wallet.respondWithError, wallet.respondWithJSON, wallet.StatusInternalServerError]

/-- C11 at concrete requests on the in-memory store holding account `a`: the one
parameter `k` gives the one call `GetAccountByPublicKey k`, and the missing key `z`
gives 404. -/
theorem C11_get_account_status_witness :
    ((memoryService 10 sealedCreated).getAccount storeWithA none [("publicKey", ["k"])]).calls
      = [wallet.Call.GetAccountByPublicKey "k"] ∧
    wallet.getStatus (memoryService 10 sealedCreated) storeWithA none [("publicKey", ["z"])]
      = some wallet.StatusNotFound :=
  ⟨((C11_get_account_status (memoryService 10 sealedCreated) storeWithA none
        [("publicKey", ["k"])]).2.2 "k" rfl).1,
    ((C11_get_account_status (memoryService 10 sealedCreated) storeWithA none
        [("publicKey", ["z"])]).2.2 "z" rfl).2.1 (by decide)⟩

/-! ## The Postgres store: properties -/

theorem pg.insertAccountRow_tx_committed (d : pg.Database) (row : pg.AccountRow) :
    (pg.insertAccountRow pg.Handle.Tx d row).1.committed = d.committed := by
  unfold pg.insertAccountRow
  cases hp : d.pending with
  | none => simp
  | some p =>
    by_cases hc : (d.committed.hasAccount row.address || p.hasAccount row.address) = true
    · simp [hc]
    · simp [hc]

theorem pg.insertPublicKeyRow_tx_committed (d : pg.Database) (row : AccountPublicKey) :
    (pg.insertPublicKeyRow pg.Handle.Tx d row).1.committed = d.committed := by
  unfold pg.insertPublicKeyRow
  cases hp : d.pending with
  | none => simp
  | some p =>
    by_cases hc : (d.committed.hasPublicKey row.PublicKey || p.hasPublicKey row.PublicKey) = true
    · simp [hc]
    · simp [hc]

theorem postgres.insertPublicKeys_tx_committed (d : pg.Database) (address : String)
    (keys : List AccountPublicKey) :
    (postgres.insertPublicKeys pg.Handle.Tx d address keys).1.committed = d.committed := by
  induction keys generalizing d with
  | nil => rfl
  | cons k rest ih =>
    have h1 := pg.insertPublicKeyRow_tx_committed d { k with AccountAddress := address }
    unfold postgres.insertPublicKeys
    cases hr : pg.insertPublicKeyRow pg.Handle.Tx d { k with AccountAddress := address } with
    | mk d1 e =>
      rw [hr] at h1
      cases e with
      | some err => simpa using h1
      | none =>
        simp only []
        rw [ih d1]
        exact h1

theorem postgres.insertStatements_tx_committed (d : pg.Database) (account : Account) :
    (postgres.insertStatements pg.Handle.Tx account d).1.committed = d.committed := by
  have h1 := pg.insertAccountRow_tx_committed d (postgres.accountRow account)
  unfold postgres.insertStatements
  cases hr : pg.insertAccountRow pg.Handle.Tx d (postgres.accountRow account) with
  | mk d1 e =>
    rw [hr] at h1
    cases e with
    | some err => simpa using h1
    | none =>
      simp only []
      rw [postgres.insertPublicKeys_tx_committed]
      exact h1

theorem pg.Tx.run_error_committed (d : pg.Database)
    (fn : pg.Database → pg.Database × Option pg.Error)
    (hfn : (fn d).1.committed = d.committed) (e : pg.Error)
    (h : (pg.Tx.RunInTransaction d fn).2 = some e) :
    (pg.Tx.RunInTransaction d fn).1.committed = d.committed := by
  unfold pg.Tx.RunInTransaction at h ⊢
  cases hr : fn d with
  | mk d1 r =>
    rw [hr] at hfn
    cases r with
    | some err => simpa [pg.Rollback] using hfn
    | none => simp [hr] at h

theorem pg.RunInTransaction_error_committed (d : pg.Database)
    (next : pg.Database → pg.Database × Option pg.Error)
    (hnext : ∀ d0, (next d0).1.committed = d0.committed) (e : pg.Error)
    (h : (pg.RunInTransaction d next).2 = some e) :
    (pg.RunInTransaction d next).1.committed = d.committed := by
  unfold pg.RunInTransaction pg.Begin at h ⊢
  cases hb : d.beginError with
  | some err => simp
  | none =>
    simp only [hb] at h ⊢
    exact pg.Tx.run_error_committed _ _ (hnext _) e h

/-- With the statements issued on the transaction handle, a call that returns an
error leaves the committed rows as they were. -/
theorem postgres.insertAccountOn_tx_all_or_nothing (d : pg.Database) (account : Account)
    (err : StoreError)
    (h : (postgres.insertAccountOn pg.Handle.Tx d account).2 = some err) :
    (postgres.insertAccountOn pg.Handle.Tx d account).1.committed = d.committed := by
  have hrun := pg.RunInTransaction_error_committed d
    (postgres.insertStatements pg.Handle.Tx account)
    (fun d0 => postgres.insertStatements_tx_committed d0 account)
  unfold postgres.insertAccountOn at h ⊢
  cases hr : pg.RunInTransaction d (postgres.insertStatements pg.Handle.Tx account) with
  | mk d1 r =>
    rw [hr] at hrun h
    cases r with
    | none => simp at h
    | some e =>
      have hc : d1.committed = d.committed := hrun e rfl
      by_cases he : e = pg.Error.ErrIntegrityViolation <;> simp [he, hc]

/-- C12, at the input where the code departs from it: on the database holding
account `a` with key `k`, `InsertAccount` of account `b` with the keys `j` and `k`
returns `ErrExists` on the key row `k`, and afterwards the committed rows hold the
account row `b` and the key row `j` written by this call. -/
theorem C12_failed_insert_keeps_rows :
    databaseWithA.committed.hasAccount "b" = false ∧
    databaseWithA.committed.hasPublicKey "j" = false ∧
    databaseWithA.committed.hasPublicKey "k" = true ∧
    (postgres.InsertAccount databaseWithA (mkAccount "b" ["j", "k"])).2
      = some StoreError.ErrExists ∧
    (postgres.InsertAccount databaseWithA (mkAccount "b" ["j", "k"])).1.committed.hasAccount "b"
      = true ∧
    (postgres.InsertAccount databaseWithA (mkAccount "b" ["j", "k"])).1.committed.hasPublicKey "j"
      = true ∧
    (postgres.InsertAccount databaseWithA (mkAccount "b" ["j", "k"])).1.committed
      ≠ databaseWithA.committed ∧
    (postgres.insertAccountOn pg.Handle.Tx databaseWithA (mkAccount "b" ["j", "k"])).1.committed
      = databaseWithA.committed := by
  decide

/-! ## Account creation on the ledger: properties -/

/-- The event loop of `Create` keeps its starting address when no event is an
account-created event. -/
theorem wallet.foldl_no_created (events : List flow.Event) (start : flow.Address)
    (h : ∀ e ∈ events, e.Type_ ≠ flow.EventAccountCreated) :
    events.foldl (fun address event =>
      if event.Type_ = flow.EventAccountCreated then event.Address else address) start
      = start := by
  induction events generalizing start with
  | nil => rfl
  | cons e rest ih =>
    have he : e.Type_ ≠ flow.EventAccountCreated := h e (List.mem_cons_self _ _)
    simp only [List.foldl_cons, he, if_false]
    exact ih start (fun x hx => h x (List.mem_cons_of_mem _ hx))

theorem wallet.createdAddress_no_created (events : List flow.Event)
    (h : ∀ e ∈ events, e.Type_ ≠ flow.EventAccountCreated) :
    wallet.createdAddress events = flow.EmptyAddress :=
  wallet.foldl_no_created events 0 h

/-- C13 fails as stated: with `Address.Hex` as the SDK computes it, a sealed result
with no execution error and no account-created event makes `Create` return an
account whose address is the text of sixteen zeros, which is not the empty text. -/
theorem C13_zero_address_counterexample :
    (∀ e ∈ sealedNoEvent.Events, e.Type_ ≠ flow.EventAccountCreated) ∧
    sealedNoEvent.Status = flow.TransactionStatus.Sealed ∧
    sealedNoEvent.Error = none ∧
    (sampleAccounts 10 sealedNoEvent).Create hexSdk
        (flow.NewAccountKey { Algorithm := 1, encodedHex := "abcd" } 3 1000)
      = Outcome.ok
          { Address := "0000000000000000"
            LockedAddress := ""
            CreationTransactionID := "07"
            PublicKeys :=
              [{ AccountAddress := "", PublicKey := "abcd", SigAlgo := "ECDSA_P256",
                 HashAlgo := "SHA3_256" }] } ∧
    "0000000000000000" ≠ "" := by
  decide

/-- C13 as amended: when the steps of `Create` before the event scan succeed and
`waitForSeal` returns a result with no execution error whose events hold no
account-created event, `Create` returns an account, not an error; its address is
`Address.Hex` of the empty (zero) address, its locked address is empty, and it has
exactly one public key, the encoded requested key. -/
theorem C13_no_created_event (sdk : Sdk) (a : wallet.Accounts)
    (newAccountKey accountCreatorKey : flow.AccountKey) (latestBlock : flow.Identifier)
    (tx : flow.Transaction) (result : flow.TransactionResult)
    (hkey : a.getAccountKey a.creatorAddress a.creatorKeyIndex = .ok accountCreatorKey)
    (hblock : a.flowClient.GetLatestBlockHeader = .ok latestBlock)
    (hsign : a.creatorSigner
        (a.createAccountTransaction a.creatorAddress accountCreatorKey newAccountKey latestBlock)
        a.creatorAddress accountCreatorKey.Index = .ok tx)
    (hsend : a.flowClient.SendTransaction tx = none)
    (hseal : wallet.waitForSeal (a.flowClient.GetTransactionResult (sdk.transactionID tx))
        = .ok result)
    (herr : result.Error = none)
    (hev : ∀ e ∈ result.Events, e.Type_ ≠ flow.EventAccountCreated) :
    ∃ account, a.Create sdk newAccountKey = .ok account ∧
      account.Address = sdk.addressHex flow.EmptyAddress ∧
      account.LockedAddress = "" ∧
      account.PublicKeys.length = 1 ∧
      account.PublicKeys.map (fun pk => pk.PublicKey) = [newAccountKey.PublicKey.encodedHex] := by
  have hz := wallet.createdAddress_no_created result.Events hev
  have hcreate : a.Create sdk newAccountKey = .ok
      { Address := sdk.addressHex flow.EmptyAddress
        LockedAddress := ""
        CreationTransactionID := sdk.identifierHex (sdk.transactionID tx)
        PublicKeys :=
          [{ AccountAddress := ""
             PublicKey := newAccountKey.PublicKey.encodedHex
             SigAlgo := sdk.sigAlgoString newAccountKey.SigAlgo
             HashAlgo := sdk.hashAlgoString newAccountKey.HashAlgo }] } := by
    simp only [wallet.Accounts.Create, hkey, hblock, hsign, hsend, hseal, herr, hz]
  exact ⟨_, hcreate, rfl, rfl, rfl, rfl⟩

/-- C13 as amended, at a concrete run: the sample ledger seals the transaction
with one event of another type. -/
theorem C13_no_created_event_witness :
    ∃ account, (sampleAccounts 10 sealedNoEvent).Create hexSdk
        (flow.NewAccountKey { Algorithm := 1, encodedHex := "abcd" } 3 1000) = .ok account ∧
      account.Address = hexSdk.addressHex flow.EmptyAddress ∧
      account.LockedAddress = "" ∧
      account.PublicKeys.length = 1 ∧
      account.PublicKeys.map (fun pk => pk.PublicKey)
        = [(flow.NewAccountKey { Algorithm := 1, encodedHex := "abcd" } 3 1000).PublicKey.encodedHex] :=
  C13_no_created_event hexSdk (sampleAccounts 10 sealedNoEvent)
    (flow.NewAccountKey { Algorithm := 1, encodedHex := "abcd" } 3 1000) creatorKey 7
    { accountKeys := [flow.NewAccountKey { Algorithm := 1, encodedHex := "abcd" } 3 1000]
      authorizer := 9, ReferenceBlockID := 7, GasLimit := 100, ProposalKey := (9, 0, 4)
      Payer := 9, envelopeSignatures := [(9, 0)] }
    sealedNoEvent (by decide) rfl rfl rfl (by decide) rfl (by decide)

/-- The polls before the decisive one leave `waitForSeal` to the rest of the
sequence. -/
theorem wallet.waitForSeal_append (pre rest : List (Except GoError flow.TransactionResult))
    (h : ∀ p ∈ pre, wallet.pollsAgain p = true) :
    wallet.waitForSeal (pre ++ rest) = wallet.waitForSeal rest := by
  induction pre with
  | nil => rfl
  | cons p tail ih =>
    have hp : wallet.pollsAgain p = true := h p (List.mem_cons_self _ _)
    have ht := ih (fun q hq => h q (List.mem_cons_of_mem _ hq))
    cases p with
    | error e => simp [wallet.pollsAgain] at hp
    | ok r =>
      have hs : r.Status ≠ flow.TransactionStatus.Sealed := by
        simpa [wallet.pollsAgain] using hp
      simp only [List.cons_append, wallet.waitForSeal, hs, if_false]
      exact ht

/-- A result or an error returned by `waitForSeal` is the first outcome of the
sequence that does not make it poll again. -/
theorem wallet.waitForSeal_split (polls : List (Except GoError flow.TransactionResult)) :
    (∀ result, wallet.waitForSeal polls = .ok result →
      result.Status = flow.TransactionStatus.Sealed ∧
      ∃ pre post, polls = pre ++ .ok result :: post ∧
        ∀ p ∈ pre, wallet.pollsAgain p = true) ∧
    (∀ err, wallet.waitForSeal polls = .error err →
      ∃ pre post, polls = pre ++ .error err :: post ∧
        ∀ p ∈ pre, wallet.pollsAgain p = true) ∧
    wallet.waitForSeal polls ≠ .panic := by
  induction polls with
  | nil => simp [wallet.waitForSeal]
  | cons p tail ih =>
    obtain ⟨ih1, ih2, ih3⟩ := ih
    cases p with
    | error e =>
      refine ⟨?_, ?_, ?_⟩
      · intro result h
        simp [wallet.waitForSeal] at h
      · intro err h
        simp only [wallet.waitForSeal, Outcome.error.injEq] at h
        subst h
        exact ⟨[], tail, rfl, by simp⟩
      · simp [wallet.waitForSeal]
    | ok r =>
      by_cases hs : r.Status = flow.TransactionStatus.Sealed
      · refine ⟨?_, ?_, ?_⟩
        · intro result h
          simp only [wallet.waitForSeal, hs, if_true, Outcome.ok.injEq] at h
          subst h
          exact ⟨hs, [], tail, rfl, by simp⟩
        · intro err h
          simp [wallet.waitForSeal, hs] at h
        · simp [wallet.waitForSeal, hs]
      · have hp : wallet.pollsAgain (Except.ok r : Except GoError flow.TransactionResult)
            = true := by simp [wallet.pollsAgain, hs]
        refine ⟨?_, ?_, ?_⟩
        · intro result h
          simp only [wallet.waitForSeal, hs, if_false] at h
          obtain ⟨h1, pre, post, hsplit, hpre⟩ := ih1 result h
          refine ⟨h1, Except.ok r :: pre, post, by simp [hsplit], ?_⟩
          intro q hq
          rcases List.mem_cons.mp hq with e | hmem
          · rw [e]; exact hp
          · exact hpre q hmem
        · intro err h
          simp only [wallet.waitForSeal, hs, if_false] at h
          obtain ⟨pre, post, hsplit, hpre⟩ := ih2 err h
          refine ⟨Except.ok r :: pre, post, by simp [hsplit], ?_⟩
          intro q hq
          rcases List.mem_cons.mp hq with e | hmem
          · rw [e]; exact hp
          · exact hpre q hmem
        · simpa [wallet.waitForSeal, hs] using ih3

/-- C14: a result returned by `waitForSeal` is sealed and is the first outcome of
the poll sequence that is not an unsealed result, so no poll error and no sealed
result comes before it. After unsealed results only, a poll error is returned as it
is, whatever the later outcomes are and also when there is none, and a sealed result
is returned likewise; on unsealed results alone `waitForSeal` is still waiting, so
no result of another status is ever returned. -/
theorem C14_waitForSeal_first_decisive_poll
    (polls pre post : List (Except GoError flow.TransactionResult))
    (result : flow.TransactionResult) (err : GoError) :
    (∀ r, wallet.waitForSeal polls = .ok r →
      r.Status = flow.TransactionStatus.Sealed ∧
      ∃ before later, polls = before ++ .ok r :: later ∧
        ∀ p ∈ before, wallet.pollsAgain p = true) ∧
    ((∀ p ∈ pre, wallet.pollsAgain p = true) →
      wallet.waitForSeal (pre ++ .error err :: post) = .error err ∧
      wallet.waitForSeal (pre ++ [.error err]) = .error err) ∧
    ((∀ p ∈ pre, wallet.pollsAgain p = true) →
      result.Status = flow.TransactionStatus.Sealed →
      wallet.waitForSeal (pre ++ .ok result :: post) = .ok result ∧
      wallet.waitForSeal (pre ++ [.ok result]) = .ok result) ∧
    ((∀ p ∈ pre, wallet.pollsAgain p = true) → wallet.waitForSeal pre = .waiting) := by
  refine ⟨(wallet.waitForSeal_split polls).1, ?_, ?_, ?_⟩
  · intro hpre
    rw [wallet.waitForSeal_append pre _ hpre, wallet.waitForSeal_append pre _ hpre]
    exact ⟨rfl, rfl⟩
  · intro hpre hs
    rw [wallet.waitForSeal_append pre _ hpre, wallet.waitForSeal_append pre _ hpre]
    simp [wallet.waitForSeal, hs]
  · intro hpre
    have h := wallet.waitForSeal_append pre [] hpre
    simpa [wallet.waitForSeal] using h

/-- C14 at a concrete poll sequence: pending, executed, then a poll error, then a
sealed result that is never reached. -/
theorem C14_waitForSeal_first_decisive_poll_witness :
    wallet.waitForSeal
        ([.ok { Status := flow.TransactionStatus.Pending, Error := none, Events := [] },
          .ok { Status := flow.TransactionStatus.Executed, Error := none, Events := [] }]
          ++ .error "unavailable" :: [.ok sealedCreated])
      = .error "unavailable" :=
  ((C14_waitForSeal_first_decisive_poll []
    [.ok { Status := flow.TransactionStatus.Pending, Error := none, Events := [] },
      .ok { Status := flow.TransactionStatus.Executed, Error := none, Events := [] }]
    [.ok sealedCreated] sealedCreated "unavailable").2.1 (by decide)).1

/-- The outcome of `getAccountKey` for an index that is not negative, when the
ledger returns the keys `keys`: the key at the index when the index is below the
number of keys, a panic when it equals the number of keys, an error when it is
above. -/
theorem wallet.getAccountKey_outcome (a : wallet.Accounts) (address : flow.Address)
    (keys : List flow.AccountKey) (index : Nat)
    (hk : a.flowClient.GetAccountAtLatestBlock address = .ok keys) :
    (∀ h : index < keys.length,
      a.getAccountKey address (index : Int) = .ok (keys.get ⟨index, h⟩)) ∧
    (index = keys.length → a.getAccountKey address (index : Int) = .panic) ∧
    (keys.length < index →
      a.getAccountKey address (index : Int) = .error "account does not contain key at index") := by
  have hneg : ¬ ((index : Int) < 0) := by omega
  refine ⟨?_, ?_, ?_⟩
  · intro h
    have h1 : ¬ ((keys.length : Int) < (index : Int)) := by omega
    simp [wallet.Accounts.getAccountKey, hk, h1, hneg, List.getElem?_eq_getElem h]
  · intro h
    have h1 : ¬ ((keys.length : Int) < (index : Int)) := by omega
    have h2 : keys.get? index = none := List.get?_eq_none.mpr (by omega)
    simp [wallet.Accounts.getAccountKey, hk, h1, hneg] at h2 ⊢
    simp [h]
  · intro h
    have h1 : (keys.length : Int) < (index : Int) := by omega
    simp [wallet.Accounts.getAccountKey, hk, h1]

/-- C15, at the input where the code departs from it: the creator account has one
key and the configured index is 1, the number of keys; the length check passes and
`getAccountKey` panics on the slice read instead of returning an error. Index 0
returns the key and index 2 returns the error. -/
theorem C15_index_equal_to_length_panics :
    (sampleAccounts 10 sealedCreated).flowClient.GetAccountAtLatestBlock 9 = .ok [creatorKey] ∧
    (sampleAccounts 10 sealedCreated).getAccountKey 9 1 = Outcome.panic ∧
    (sampleAccounts 10 sealedCreated).getAccountKey 9 0 = Outcome.ok creatorKey ∧
    (sampleAccounts 10 sealedCreated).getAccountKey 9 2
      = Outcome.error "account does not contain key at index" :=
  ⟨rfl, by decide, by decide, by decide⟩

end FlowAccountApi
